import Mathlib

/-!
Shallow embedding of the UNO rules engine (card model, deck/board/hand
containers, turn manager, and the GameEngine operations) together with
theorems about play validation, empty-deck recovery, recycling, win
detection, turn advancement and card dealing.

Modelling conventions:
* Python `None` is `Option.none`; attribute lookups that can fail return
  `Option`, and code paths whose exceptions are caught by a caller are
  modelled with `Except Unit`.
* Python lists are Lean `List`s with the same element order
  (`append` = `list.append`, `pop()` = remove the last element).
* Board storage is `List (Option Card)` because `Board.clear_all_except_last`
  in the source can store the literal `None` returned by
  `show_top_card_on_board` back into the list (empty-board case).  The deck
  shares the element type since recycled board elements are appended to it.
* Python `%` on integers with a positive modulus is `Int.emod` (both give a
  non-negative result for a positive right operand).
-/

namespace UNO

/-- Color enum from game_constants.py. -/
inductive Color
  | RED
  | YELLOW
  | GREEN
  | BLUE
  | COLORLESS
deriving DecidableEq, Repr

/-- String payload of each Color enum member (game_constants.py). -/
def Color.value : Color → String
  | .RED => "Red"
  | .YELLOW => "Yellow"
  | .GREEN => "Green"
  | .BLUE => "Blue"
  | .COLORLESS => "Colorless"

/-- CardType enum from game_constants.py. -/
inductive CardType
  | NUMBER
  | SKIP
  | DRAW_TWO
  | REVERSE
  | WILD
  | WILD_DRAW_FOUR
  | CUSTOM_CARD_X
  | CUSTOM_ACTION_CARD_Y
  | CUSTOM_WILD_CARD_Z
deriving DecidableEq, Repr

/-- String payload of each CardType enum member (game_constants.py). -/
def CardType.value : CardType → String
  | .NUMBER => "Number"
  | .SKIP => "Skip"
  | .DRAW_TWO => "Draw +2"
  | .REVERSE => "Reverse"
  | .WILD => "Wild"
  | .WILD_DRAW_FOUR => "Wild Draw +4"
  | .CUSTOM_CARD_X => "Custom X"
  | .CUSTOM_ACTION_CARD_Y => "Custom Y"
  | .CUSTOM_WILD_CARD_Z => "Custom Z"

/-- EffectCategory enum from game_constants.py. -/
inductive EffectCategory
  | DRAW
  | COLOR_CHANGE
  | TURN
  | END_TURN
deriving DecidableEq, Repr

/-- The concrete Card subclass of a card object (card.py defines one class
per kind; the tag plays the role of Python virtual dispatch). -/
inductive CardClass
  | NumberCard
  | SkipCard
  | DrawTwoCard
  | ReverseCard
  | WildCard
  | WildDrawFourCard
deriving DecidableEq, Repr

/-- A card object (card.py).  `chosen_color` is only ever set on the two wild
subclasses; for the others it stays `none` (those Python objects have no
`_chosen_color` attribute at all and no code reads it on them).  `card_id` is
an `Int` because CardFactory always assigns an integer id at creation. -/
structure Card where
  cls : CardClass
  color : Color
  card_value : Option Int
  card_id : Int
  chosen_color : Option Color
deriving DecidableEq, Repr

/-- Python `self.__class__.__name__` for each subclass. -/
def Card.class_name (c : Card) : String :=
  match c.cls with
  | .NumberCard => "NumberCard"
  | .SkipCard => "SkipCard"
  | .DrawTwoCard => "DrawTwoCard"
  | .ReverseCard => "ReverseCard"
  | .WildCard => "WildCard"
  | .WildDrawFourCard => "WildDrawFourCard"

/-- The `card_type` property of each subclass (card.py). -/
def Card.card_type (c : Card) : CardType :=
  match c.cls with
  | .NumberCard => CardType.NUMBER
  | .SkipCard => CardType.SKIP
  | .DrawTwoCard => CardType.DRAW_TWO
  | .ReverseCard => CardType.REVERSE
  | .WildCard => CardType.WILD
  | .WildDrawFourCard => CardType.WILD_DRAW_FOUR

/-- The `_effect_types` set assigned by each subclass constructor (card.py);
the `effect_types` property returns the same value. -/
def Card.effect_types (c : Card) : List EffectCategory :=
  match c.cls with
  | .NumberCard => []
  | .SkipCard => [EffectCategory.TURN]
  | .DrawTwoCard => [EffectCategory.DRAW]
  | .ReverseCard => [EffectCategory.TURN]
  | .WildCard => [EffectCategory.COLOR_CHANGE]
  | .WildDrawFourCard => [EffectCategory.DRAW, EffectCategory.COLOR_CHANGE]

/-- The `effective_color` property: the plain color for non-wild subclasses;
for Wild / WildDrawFour it is `self._chosen_color if self._chosen_color else
Color.COLORLESS` (card.py).  Enum members are truthy in Python, so this is
exactly `getD COLORLESS`. -/
def Card.effective_color (c : Card) : Color :=
  match c.cls with
  | .WildCard | .WildDrawFourCard => c.chosen_color.getD Color.COLORLESS
  | _ => c.color

/-- Python format spec `{s:<w}`: left-justify by padding with spaces up to
width `w` (no truncation). -/
def pyPadRight (s : String) (w : Nat) : String :=
  s ++ String.mk (List.replicate (w - s.length) ' ')

/-- Card.__str__ (card.py): the formatted one-line card description. -/
def Card.str (c : Card) : String :=
  "Card: " ++ pyPadRight c.class_name 16 ++ "| " ++
  "ID: " ++ pyPadRight (toString c.card_id) 3 ++ " | " ++
  "Color: " ++ pyPadRight c.color.value 10 ++ " | " ++
  "Effective: " ++ pyPadRight c.effective_color.value 10 ++ " | " ++
  "Value: " ++
    pyPadRight (match c.card_value with | some v => toString v | none => "N/A") 4 ++
  " | " ++
  "Type: " ++ c.card_type.value

/-- Hand (hand.py): the `_cards` list of a player. -/
structure Hand where
  cards : List Card
deriving DecidableEq, Repr

/-- Hand.get_hand: returns a copy of the card list. -/
def Hand.get_hand (h : Hand) : List Card :=
  h.cards

/-- Hand.show_hand (hand.py): a formatted display STRING, one line
`"{index}: {card}"` per card joined with a newline, or `"Hand is empty"`. -/
def Hand.show_hand (h : Hand) : String :=
  if h.cards = [] then "Hand is empty"
  else String.intercalate "\n"
    (h.cards.enum.map (fun p => toString p.1 ++ ": " ++ p.2.str))

/-- Player (player.py).  `is_human` is Optional[bool] in the source. -/
structure Player where
  name : String
  hand : Hand
  player_id : Int
  is_human : Option Bool
deriving DecidableEq, Repr

/-- Board (board.py): the `_cards_on_board` list.  Elements are
`Option Card` because `clear_all_except_last` can store `None` (see below). -/
structure Board where
  cards_on_board : List (Option Card)
deriving DecidableEq, Repr

/-- Board.show_top_card_on_board: `self._cards_on_board[-1]`, or `None` on
IndexError.  The returned value is the stored element itself, so a stored
`None` and an empty board both yield `none` (exactly as in Python, where the
caller cannot tell the two apart either). -/
def Board.show_top_card_on_board (b : Board) : Option Card :=
  b.cards_on_board.getLast?.join

/-- Board.clear_all_except_last (board.py): keeps every element equal to the
top (by Python object comparison) out of the recycle list and REPLACES the
whole list with `[last_card]` — even when the board was empty, in which case
the literal `None` is stored and the board ends up with one null entry.
Returns (cards_to_recycle, new board). -/
def Board.clear_all_except_last (b : Board) : List (Option Card) × Board :=
  let last_card := b.show_top_card_on_board
  let cards_to_recycle := b.cards_on_board.filter (fun card => decide (card ≠ last_card))
  (cards_to_recycle, ⟨[last_card]⟩)

/-- Deck (deck.py): the `_card_deck` list.  Shares the board element type
because recycled board elements are appended verbatim. -/
structure Deck where
  card_deck : List (Option Card)
deriving DecidableEq, Repr

/-- Deck.get_deck_length. -/
def Deck.get_deck_length (d : Deck) : Nat :=
  d.card_deck.length

/-- Deck.draw_card (deck.py): `pop()` from the end when the list is
non-empty, else return `None` — it never raises.  A popped element is
returned as-is (a stored `None` is returned as `None`). -/
def Deck.draw_card (d : Deck) : Option Card × Deck :=
  match d.card_deck.getLast? with
  | some e => (e, ⟨d.card_deck.dropLast⟩)
  | none => (none, d)

/-- Deck.add_card_to_deck: append. -/
def Deck.add_card_to_deck (d : Deck) (card : Option Card) : Deck :=
  ⟨d.card_deck ++ [card]⟩

/-- Deck.attempt_recycle_deck (deck.py): clear the board except its top and
append the removed elements to the deck in board order.  No shuffling
happens here (deck.py calls `shuffle_deck` only from DeckBuilder). -/
def Deck.attempt_recycle_deck (d : Deck) (b : Board) : Deck × Board :=
  let (board_cards_to_recycle, b') := b.clear_all_except_last
  (⟨d.card_deck ++ board_cards_to_recycle⟩, b')

/-- Python list indexing `l[i]` for an int index: negative indices wrap once
from the end; out-of-range gives IndexError (here `none`). -/
def pyIndex {α : Type} (l : List α) (i : Int) : Option α :=
  let j := if i < 0 then i + l.length else i
  if 0 ≤ j then l[j.toNat]? else none

/-- TurnManager (turn_manager.py): player list, `_current` index and the
`_clockwise` direction flag. -/
structure TurnManager where
  players : List Player
  current : Int
  clockwise : Bool
deriving DecidableEq, Repr

/-- TurnManager.get_current_player: `self._players[self._current]`. -/
def TurnManager.get_current_player (tm : TurnManager) : Option Player :=
  pyIndex tm.players tm.current

/-- TurnManager.get_next_player (turn_manager.py): peek at the player at
`(current ± 1) % len(players)` without changing any state. -/
def TurnManager.get_next_player (tm : TurnManager) : Option Player :=
  let next_player : Int :=
    if tm.clockwise then (tm.current + 1) % (tm.players.length : Int)
    else (tm.current - 1) % (tm.players.length : Int)
  pyIndex tm.players next_player

/-- TurnManager.end_turn: advance `_current` by ±1 modulo the player count
(direction decides the sign).  The observer notification does not touch
turn state. -/
def TurnManager.end_turn (tm : TurnManager) : TurnManager :=
  if tm.clockwise then
    { tm with current := (tm.current + 1) % (tm.players.length : Int) }
  else
    { tm with current := (tm.current - 1) % (tm.players.length : Int) }

/-- TurnManager.reverse_play_order: toggle the direction flag. -/
def TurnManager.reverse_play_order (tm : TurnManager) : TurnManager :=
  { tm with clockwise := !tm.clockwise }

/-- TurnManager.skip_turn (turn_manager.py): literally `self.end_turn()`. -/
def TurnManager.skip_turn (tm : TurnManager) : TurnManager :=
  tm.end_turn

/-- GameRules configuration attributes (game_config.py). -/
structure GameRules where
  FORCE_PLAY_IF_POSSIBLE : Bool
  ALLOW_MULTIPLE_DECKS : Bool
  STARTING_HAND_SIZE : Int
  ALLOW_FINAL_SPECIAL_CARD : Bool
  DRAW_PENALTY : Int
  TIMEOUT_SECONDS : Int
  STACKABLE_DRAW_CARDS : Bool
  WILD_CARD_ALLOW_PICK_COLOR : Bool
  SKIP_TURN_ON_DRAW : Bool
deriving DecidableEq, Repr

/-- The base / StandardRules values (game_config.py). -/
def StandardRules : GameRules :=
  { FORCE_PLAY_IF_POSSIBLE := true
    ALLOW_MULTIPLE_DECKS := true
    STARTING_HAND_SIZE := 7
    ALLOW_FINAL_SPECIAL_CARD := true
    DRAW_PENALTY := 1
    TIMEOUT_SECONDS := 30
    STACKABLE_DRAW_CARDS := true
    WILD_CARD_ALLOW_PICK_COLOR := true
    SKIP_TURN_ON_DRAW := false }

/-- The HardcoreRules values (game_config.py): overrides on the base. -/
def HardcoreRules : GameRules :=
  { StandardRules with
    ALLOW_FINAL_SPECIAL_CARD := false
    DRAW_PENALTY := 2
    TIMEOUT_SECONDS := 20
    SKIP_TURN_ON_DRAW := true }

/-- DeckConfiguration attributes used by the engine (game_config.py). -/
structure DeckConfiguration where
  ACTION_CARDS_PER_COLOR : Int
  WILD_CARDS_PER_TYPE : Int
  DECK_COLORS : List Color
  ACTION_CARDS : List CardType
  WILD_CARDS : List CardType
deriving DecidableEq, Repr

/-- The base / StandardDeck values (game_config.py). -/
def StandardDeck : DeckConfiguration :=
  { ACTION_CARDS_PER_COLOR := 2
    WILD_CARDS_PER_TYPE := 4
    DECK_COLORS := [Color.RED, Color.BLUE, Color.GREEN, Color.YELLOW]
    ACTION_CARDS := [CardType.SKIP, CardType.DRAW_TWO, CardType.REVERSE]
    WILD_CARDS := [CardType.WILD, CardType.WILD_DRAW_FOUR] }

/-- The Game orchestrator state consumed by the engine and the cards
(game.py): configuration, the shared deck/board, the turn manager and the
active flag.  `engine._deck` / `engine._board` alias `game.deck` /
`game.board` in the source, so the engine operations below read them from
here. -/
structure Game where
  rules : GameRules
  deck_config : DeckConfiguration
  deck : Deck
  board : Board
  tm : TurnManager
  game_active : Bool
deriving DecidableEq, Repr

/-- Game.stop_game: set the active flag to False. -/
def Game.stop_game (g : Game) : Game :=
  { g with game_active := false }

/-- Card._validate_last_card_allowed (card.py lines 90-95).  When the
ALLOW_FINAL_SPECIAL_CARD rule is off it compares
`len(game_context.tm.get_current_player().hand.show_hand())` — the length of
the formatted DISPLAY STRING returned by `Hand.show_hand`, not the number of
cards — with 1.  An out-of-range current index raises IndexError in Python,
modelled as `Except.error`. -/
def Card.validate_last_card_allowed (g : Game) : Except Unit Bool :=
  if g.rules.ALLOW_FINAL_SPECIAL_CARD = false then
    match g.tm.get_current_player with
    | none => Except.error ()
    | some p => if p.hand.show_hand.length = 1 then Except.ok false else Except.ok true
  else Except.ok true

/-- can_execute_effect of each Card subclass (card.py).  NumberCard is
always True.  The other kinds: True when the board has no top card; else
fail the last-card check first; DrawTwo / WildDrawFour additionally return
False when stacking is disabled and the top card's effect set contains DRAW
(DrawTwoCard reads `top_card._effect_types`, WildDrawFourCard reads the
`effect_types` property — the same value).  `Except.error` marks a Python
exception escaping the method (possible only from the last-card check). -/
def Card.can_execute_effect (c : Card) (g : Game) : Except Unit Bool :=
  match c.cls with
  | .NumberCard => Except.ok true
  | .SkipCard | .ReverseCard | .WildCard =>
    match g.board.show_top_card_on_board with
    | none => Except.ok true
    | some _ =>
      match Card.validate_last_card_allowed g with
      | Except.error e => Except.error e
      | Except.ok allowed =>
        if allowed = false then Except.ok false
        else Except.ok true
  | .DrawTwoCard | .WildDrawFourCard =>
    match g.board.show_top_card_on_board with
    | none => Except.ok true
    | some top_card =>
      match Card.validate_last_card_allowed g with
      | Except.error e => Except.error e
      | Except.ok allowed =>
        if allowed = false then Except.ok false
        else if g.rules.STACKABLE_DRAW_CARDS = false ∧
                EffectCategory.DRAW ∈ top_card.effect_types then Except.ok false
        else Except.ok true

namespace GameEngine

/-- GameEngine.validate_play (game_engine.py lines 28-56).  Empty board is
legal unconditionally; otherwise the three `if ... return True` checks run
in source order (effective-color match + effect check, number-value match,
configured-wild-kind + effect check) and fall through to False.  Any
exception inside the `try` block is caught and yields False. -/
def validate_play (g : Game) (card_to_validate : Card) : Bool :=
  match g.board.show_top_card_on_board with
  | none => true
  | some top_card =>
    match (if card_to_validate.effective_color = top_card.effective_color
           then card_to_validate.can_execute_effect g
           else Except.ok false) with
    | Except.error _ => false
    | Except.ok true => true
    | Except.ok false =>
      if card_to_validate.card_type = CardType.NUMBER ∧
         card_to_validate.card_value = top_card.card_value then true
      else
        match (if card_to_validate.card_type ∈ g.deck_config.WILD_CARDS
               then card_to_validate.can_execute_effect g
               else Except.ok false) with
        | Except.error _ => false
        | Except.ok b => b

/-- GameEngine.check_win_condition (game_engine.py lines 98-105): hand size
1 only prints the UNO notice; hand size 0 calls `game_context.stop_game()`.
Nothing else is touched. -/
def check_win_condition (g : Game) (player : Player) : Game :=
  let hand_size := player.hand.get_hand.length
  if hand_size = 0 then g.stop_game else g

/-- The deck/board pair the engine mutates during draws (aliases of the
Game's deck and board). -/
structure DrawState where
  deck : Deck
  board : Board
deriving DecidableEq, Repr

/-- The primitive deck operations the draw-recovery flow can invoke, in call
order.  `shuffleDeck` stands for Deck.shuffle_deck and `populateNewDeck` for
DeckBuilder.populate_deck; they are part of the vocabulary so that theorems
can state whether the flow performs them. -/
inductive EngineOp
  | recycleFromBoard
  | drawFromDeck
  | shuffleDeck
  | populateNewDeck
deriving DecidableEq, Repr

/-- GameEngine._handle_empty_deck_scenario (game_engine.py lines 142-165).
Strategy 1: when the deck is empty, recycle the board into the deck, then
`return self._deck.draw_card()`.  Because Deck.draw_card returns `None`
instead of raising IndexError, that `return` executes unconditionally and
the `except IndexError: pass` on line 150 can never fire — so Strategy 2
(the ALLOW_MULTIPLE_DECKS branch on lines 153-162 that would populate a new
deck batch and retry) is unreachable dead code and is therefore absent from
the embedding.  The returned list records the deck operations performed, in
order. -/
def handle_empty_deck_scenario (_rules : GameRules) (st : DrawState) :
    Option Card × DrawState × List EngineOp :=
  let (st1, ops1) :=
    if st.deck.get_deck_length = 0 then
      let (d', b') := st.deck.attempt_recycle_deck st.board
      ((⟨d', b'⟩ : DrawState), [EngineOp.recycleFromBoard])
    else (st, [])
  let (c, d2) := st1.deck.draw_card
  (c, ⟨d2, st1.board⟩, ops1 ++ [EngineOp.drawFromDeck])

/-- GameEngine.player_draw_card (game_engine.py lines 107-140), as a
transformer of the deck/board pair and the drawing player's hand.  Each
iteration: draw; on `None` run the empty-deck recovery; on success append
the card to the hand and continue, otherwise warn and break out of the
loop. -/
def player_draw_card (rules : GameRules) : DrawState → Hand → Nat → DrawState × Hand
  | st, hand, 0 => (st, hand)
  | st, hand, Nat.succ k =>
    let drawn := st.deck.draw_card
    let afterDraw : DrawState := ⟨drawn.2, st.board⟩
    let retry : Option Card × DrawState :=
      match drawn.1 with
      | none =>
        let recovered := handle_empty_deck_scenario rules afterDraw
        (recovered.1, recovered.2.1)
      | some c => (some c, afterDraw)
    match retry.1 with
    | some c => player_draw_card rules retry.2 ⟨hand.cards ++ [c]⟩ k
    | none => (retry.2, hand)

/-- The `for player in players` body of GameEngine.deal_cards: each player
in list order draws `n` cards (the player's hand is the only player field
that changes). -/
def deal_loop (rules : GameRules) (n : Nat) : DrawState → List Player → DrawState × List Player
  | st, [] => (st, [])
  | st, p :: rest =>
    let res1 := player_draw_card rules st p.hand n
    let res2 := deal_loop rules n res1.1 rest
    (res2.1, { p with hand := res1.2 } :: res2.2)

/-- GameEngine.deal_cards (game_engine.py lines 58-64).  The Python argument
can be any object; `none` here stands for a non-int value (isinstance check
fails).  A non-int or non-positive value falls back to 7, then every player
in list order draws that many cards. -/
def deal_cards (rules : GameRules) (st : DrawState) (players : List Player)
    (cards_per_player : Option Int) : DrawState × List Player :=
  let cpp : Int :=
    match cards_per_player with
    | none => 7
    | some v => if v ≤ 0 then 7 else v
  deal_loop rules cpp.toNat st players

end GameEngine

/-! Helper lemmas. -/

/-- An `Option.join` of a `getLast?` is `none` exactly on the empty list,
provided every stored element is a `some` (well-formed container per the
data model). -/
theorem getLast?_join_eq_none_iff {α : Type} (l : List (Option α))
    (hwf : ∀ e ∈ l, e.isSome = true) : l.getLast?.join = none ↔ l = [] := by
  constructor
  · intro h
    by_contra hne
    cases hl : l.getLast? with
    | none => exact hne (List.getLast?_eq_none_iff.mp hl)
    | some e =>
      obtain ⟨ys, hys⟩ := List.getLast?_eq_some_iff.mp hl
      have hmem : e ∈ l := by
        rw [hys]
        exact List.mem_append_right _ (List.mem_singleton_self e)
      have hsome := hwf e hmem
      rw [hl] at h
      have he : e = none := h
      rw [he] at hsome
      simp at hsome
  · intro h
    subst h
    rfl

/-- Filtering away the last element, when it does not reoccur among the
earlier elements, keeps exactly the other elements in order. -/
theorem filter_ne_of_last_unique {α : Type} [DecidableEq α] (l : List α) (x : α)
    (hlast : l.getLast? = some x) (hnotin : x ∉ l.dropLast) :
    l.filter (fun e => decide (e ≠ x)) = l.dropLast := by
  obtain ⟨ys, rfl⟩ := List.getLast?_eq_some_iff.mp hlast
  rw [List.dropLast_concat, List.filter_append]
  rw [List.dropLast_concat] at hnotin
  have hys : x ∉ ys := hnotin
  have h2 : ys.filter (fun e => decide (e ≠ x)) = ys := by
    rw [List.filter_eq_self]
    intro a ha
    simp only [decide_eq_true_iff]
    intro hax
    exact hys (hax ▸ ha)
  have h3 : List.filter (fun e => decide (e ≠ x)) [x] = [] := by simp
  rw [h2, h3, List.append_nil]

/-- Reduction of `validate_play` when the board has a top card. -/
theorem validate_play_top (g : Game) (card top : Card)
    (htop : g.board.show_top_card_on_board = some top) :
    GameEngine.validate_play g card =
      (match (if card.effective_color = top.effective_color
              then card.can_execute_effect g else Except.ok false) with
       | Except.error _ => false
       | Except.ok true => true
       | Except.ok false =>
         if card.card_type = CardType.NUMBER ∧
            card.card_value = top.card_value then true
         else
           match (if card.card_type ∈ g.deck_config.WILD_CARDS
                  then card.can_execute_effect g else Except.ok false) with
           | Except.error _ => false
           | Except.ok b => b) := by
  simp only [GameEngine.validate_play, htop]

/-- A card's type is NUMBER exactly when it is a NumberCard object. -/
theorem card_type_number_iff (c : Card) :
    c.card_type = CardType.NUMBER ↔ c.cls = CardClass.NumberCard := by
  cases h : c.cls <;> simp [Card.card_type, h]

/-- NumberCard.can_execute_effect is unconditionally True. -/
theorem canExec_of_number (g : Game) (c : Card)
    (h : c.card_type = CardType.NUMBER) :
    c.can_execute_effect g = Except.ok true := by
  have hcls := (card_type_number_iff c).mp h
  simp [Card.can_execute_effect, hcls]

/-!  Claim C6. -/

/-- C6 counterexample: the claim says clearing an EMPTY board leaves the
Board empty, but `clear_all_except_last` stores `[last_card]` where
`last_card` is the `None` returned by `show_top_card_on_board`, leaving a
board of size one holding a null entry. -/
theorem C6_counterexample :
    ¬ ((Board.clear_all_except_last ⟨[]⟩).2.cards_on_board = []) := by decide

/-- C6 (amended): for a board whose top card exists and does not reoccur
among the earlier entries (guaranteed by the one-container / unique-id data
model), clearing returns exactly the k-1 non-top cards in order and leaves
exactly the former top card; for an EMPTY board it returns no cards but
leaves the board holding a single null entry (size 1), not an empty
board. -/
theorem C6_clear_all_except_last (b : Board) :
    (∀ top : Card, b.show_top_card_on_board = some top →
       some top ∉ b.cards_on_board.dropLast →
       (b.clear_all_except_last.1 = b.cards_on_board.dropLast ∧
        b.clear_all_except_last.1.length = b.cards_on_board.length - 1 ∧
        (b.clear_all_except_last.2).cards_on_board = [some top])) ∧
    (b.cards_on_board = [] →
       b.clear_all_except_last.1 = [] ∧
       (b.clear_all_except_last.2).cards_on_board = [none]) := by
  constructor
  · intro top htop hnotin
    have hlast : b.cards_on_board.getLast? = some (some top) := by
      unfold Board.show_top_card_on_board at htop
      cases hl : b.cards_on_board.getLast? with
      | none => rw [hl] at htop; exact absurd htop (by simp)
      | some e =>
        rw [hl] at htop
        have he : e = some top := htop
        rw [he]
    have hfil := filter_ne_of_last_unique b.cards_on_board (some top) hlast hnotin
    have hclear : b.clear_all_except_last =
        (b.cards_on_board.filter (fun card => decide (card ≠ some top)),
         (⟨[some top]⟩ : Board)) := by
      unfold Board.clear_all_except_last
      rw [htop]
    rw [hclear, hfil]
    exact ⟨rfl, List.length_dropLast _, rfl⟩
  · intro h
    have hclear : b.clear_all_except_last = ([], (⟨[none]⟩ : Board)) := by
      unfold Board.clear_all_except_last Board.show_top_card_on_board
      rw [h]
      rfl
    rw [hclear]
    exact ⟨rfl, rfl⟩

/-- A concrete number card used in witnesses. -/
def cardA : Card := ⟨CardClass.NumberCard, Color.RED, some 5, 10, none⟩

/-- A second concrete number card used in witnesses. -/
def cardB : Card := ⟨CardClass.NumberCard, Color.BLUE, some 7, 11, none⟩

/-- C6 witness: the amended theorem evaluated on a concrete two-card
board. -/
theorem C6_witness :
    (Board.clear_all_except_last ⟨[some cardA, some cardB]⟩).1 = [some cardA] ∧
    (Board.clear_all_except_last ⟨[some cardA, some cardB]⟩).2.cards_on_board
      = [some cardB] := by
  have h := (C6_clear_all_except_last ⟨[some cardA, some cardB]⟩).1 cardB
    (by decide) (by decide)
  exact ⟨by rw [h.1]; rfl, h.2.2⟩

/-!  Claim C7. -/

/-- C7: `check_win_condition` turns the game inactive exactly when the
player's hand is empty (an already-inactive game stays inactive); with hand
size zero it performs exactly `stop_game` (so deck, board, hands and turn
state are untouched), and with hand size at least one it changes nothing at
all. -/
theorem C7_check_win_condition (g : Game) (p : Player) :
    ((GameEngine.check_win_condition g p).game_active = false ↔
       (p.hand.get_hand.length = 0 ∨ g.game_active = false)) ∧
    (p.hand.get_hand.length = 0 →
       GameEngine.check_win_condition g p = g.stop_game) ∧
    (1 ≤ p.hand.get_hand.length → GameEngine.check_win_condition g p = g) := by
  by_cases h : p.hand.get_hand.length = 0
  · simp [GameEngine.check_win_condition, Game.stop_game, h]
  · constructor
    · simp [GameEngine.check_win_condition, h]
    · exact ⟨fun h0 => absurd h0 h, fun _ => by simp [GameEngine.check_win_condition, h]⟩

/-- A player holding no cards. -/
def playerEmptyHand : Player := ⟨"Winner", ⟨[]⟩, 3, some true⟩

/-- A player holding one card. -/
def playerOneCard : Player := ⟨"Uno", ⟨[cardA]⟩, 4, some true⟩

/-- A concrete active game used by the C7 witness. -/
def gameWin : Game :=
  { rules := StandardRules, deck_config := StandardDeck, deck := ⟨[]⟩,
    board := ⟨[some cardB]⟩, tm := ⟨[playerEmptyHand, playerOneCard], 0, true⟩,
    game_active := true }

/-- C7 witness: a zero-card hand ends the game; a one-card hand changes
nothing. -/
theorem C7_witness :
    (GameEngine.check_win_condition gameWin playerEmptyHand).game_active = false ∧
    GameEngine.check_win_condition gameWin playerOneCard = gameWin :=
  ⟨(C7_check_win_condition gameWin playerEmptyHand).1.mpr (Or.inl rfl),
   (C7_check_win_condition gameWin playerOneCard).2.2 (by decide)⟩

/-!  Claim C8. -/

/-- C8: `skip_turn` is exactly one `end_turn` transition, so a Skip effect
followed by the orchestrator's normal end-of-turn advances the current
index by two steps modulo the player count in the active direction and
leaves the direction unchanged. -/
theorem C8_skip_then_end_turn (tm : TurnManager) (_h : 1 ≤ tm.players.length) :
    tm.skip_turn = tm.end_turn ∧
    (tm.skip_turn.end_turn).clockwise = tm.clockwise ∧
    (tm.skip_turn.end_turn).current =
      (if tm.clockwise then tm.current + 2 else tm.current - 2) %
        (tm.players.length : Int) := by
  refine ⟨rfl, ?_, ?_⟩
  · unfold TurnManager.skip_turn TurnManager.end_turn
    by_cases hc : tm.clockwise <;> simp [hc]
  · unfold TurnManager.skip_turn TurnManager.end_turn
    by_cases hc : tm.clockwise <;> simp [hc] <;> ring_nf
    rw [add_comm (-1 : Int) ((-1 + tm.current) % (tm.players.length : Int)),
      Int.emod_add_emod]
    ring_nf

/-- A concrete three-player turn state used by the C8 witness. -/
def tm3 : TurnManager :=
  ⟨[playerEmptyHand, playerOneCard, ⟨"C", ⟨[]⟩, 5, some false⟩], 2, true⟩

/-- C8 witness: on three players at index 2, Skip plus end-of-turn wraps to
index 1 and keeps the clockwise direction. -/
theorem C8_witness :
    tm3.skip_turn = tm3.end_turn ∧
    (tm3.skip_turn.end_turn).clockwise = tm3.clockwise ∧
    (tm3.skip_turn.end_turn).current =
      (if tm3.clockwise then tm3.current + 2 else tm3.current - 2) %
        (tm3.players.length : Int) :=
  C8_skip_then_end_turn tm3 (by decide)

/-- A Python index that is known to be in range looks up the element at
that position. -/
theorem pyIndex_isSome {α : Type} (l : List α) (i : Int) (h0 : 0 ≤ i)
    (hl : i < (l.length : Int)) : (pyIndex l i).isSome = true := by
  unfold pyIndex
  have hnotneg : ¬ i < 0 := not_lt.mpr h0
  have hlt : i.toNat < l.length := by omega
  simp only [hnotneg, if_false, h0, if_true]
  rw [List.getElem?_eq_getElem hlt]
  rfl

/-!  Claim C9. -/

/-- C9: `get_next_player` is a pure peek (embedded as a function with no
state output, matching the mutation-free source) and returns exactly the
player that `get_current_player` returns right after one `end_turn`; on a
non-empty player list it always returns a player. -/
theorem C9_get_next_player (tm : TurnManager) (h : tm.players ≠ []) :
    tm.get_next_player = tm.end_turn.get_current_player ∧
    (tm.get_next_player).isSome = true := by
  constructor
  · unfold TurnManager.get_next_player TurnManager.end_turn
      TurnManager.get_current_player
    by_cases hc : tm.clockwise <;> simp [hc]
  · have hn : 0 < (tm.players.length : Int) := by
      have := List.length_pos.mpr h
      exact_mod_cast this
    unfold TurnManager.get_next_player
    by_cases hc : tm.clockwise <;> simp only [hc, if_true, if_false, Bool.false_eq_true]
    · exact pyIndex_isSome _ _ (Int.emod_nonneg _ (ne_of_gt hn))
        (Int.emod_lt_of_pos _ hn)
    · exact pyIndex_isSome _ _ (Int.emod_nonneg _ (ne_of_gt hn))
        (Int.emod_lt_of_pos _ hn)

/-- C9 witness: the peek/advance agreement evaluated on the concrete
three-player turn state. -/
theorem C9_witness :
    tm3.get_next_player = tm3.end_turn.get_current_player ∧
    (tm3.get_next_player).isSome = true :=
  C9_get_next_player tm3 (by decide)

/-!  Claim C2. -/

/-- A red Skip card held as the player's only card. -/
def skipRedHand : Card := ⟨CardClass.SkipCard, Color.RED, none, 1, none⟩

/-- The red Skip card lying on top of the board. -/
def skipRedTop : Card := ⟨CardClass.SkipCard, Color.RED, none, 2, none⟩

/-- The current player of the C2 scenario, holding only the red Skip. -/
def playerC2 : Player := ⟨"P1", ⟨[skipRedHand]⟩, 1, some true⟩

/-- The C2 scenario: ALLOW_FINAL_SPECIAL_CARD is false (HardcoreRules),
the board top is a red Skip, and the current player's hand is exactly one
red Skip. -/
def gameC2 : Game :=
  { rules := HardcoreRules, deck_config := StandardDeck, deck := ⟨[]⟩,
    board := ⟨[some skipRedTop]⟩, tm := ⟨[playerC2], 0, true⟩,
    game_active := true }

/-- C2: the claim states that in this scenario `can_execute_effect` returns
False and the play is rejected, but the code returns True and accepts the
play: `_validate_last_card_allowed` measures
`len(hand.show_hand())` — the length of the formatted display string (105
characters here), not the hand size (1) — so the last-card restriction can
never fire. -/
theorem C2_last_card_check_is_dead :
    Card.can_execute_effect skipRedHand gameC2 = Except.ok true ∧
    GameEngine.validate_play gameC2 skipRedHand = true ∧
    (playerC2.hand.show_hand).length = 105 ∧
    playerC2.hand.get_hand.length = 1 ∧
    gameC2.rules.ALLOW_FINAL_SPECIAL_CARD = false := by
  refine ⟨rfl, rfl, by decide, rfl, rfl⟩

/-!  Claim C3. -/

/-- C3: the claim states that with ALLOW_MULTIPLE_DECKS active an
exhausted-deck draw populates a new deck batch and succeeds, but the code
returns `none` without performing any populate operation: recycling a
one-card board yields nothing, and the Strategy-1 `return
self._deck.draw_card()` executes unconditionally (draw_card returns None
rather than raising the IndexError the code expects), so the
multiple-decks branch is unreachable and the draw fails with the partial-
fulfillment warning instead. -/
theorem C3_multiple_decks_branch_unreachable :
    StandardRules.ALLOW_MULTIPLE_DECKS = true ∧
    GameEngine.handle_empty_deck_scenario StandardRules ⟨⟨[]⟩, ⟨[some skipRedTop]⟩⟩
      = (none, ⟨⟨[]⟩, ⟨[some skipRedTop]⟩⟩,
         [GameEngine.EngineOp.recycleFromBoard, GameEngine.EngineOp.drawFromDeck]) ∧
    GameEngine.EngineOp.populateNewDeck ∉
      (GameEngine.handle_empty_deck_scenario StandardRules
        ⟨⟨[]⟩, ⟨[some skipRedTop]⟩⟩).2.2 := by
  refine ⟨rfl, ?_, ?_⟩ <;> decide

/-!  Claim C4. -/

/-- C4 counterexample: the claim says the recovery flow always shuffles
immediately after recycling, but on a concrete empty-deck draw with a
three-card board the performed operations are exactly recycle-then-draw,
with no shuffle anywhere. -/
theorem C4_counterexample :
    (GameEngine.handle_empty_deck_scenario StandardRules
        ⟨⟨[]⟩, ⟨[some cardA, some cardB, some skipRedTop]⟩⟩).2.2
      = [GameEngine.EngineOp.recycleFromBoard, GameEngine.EngineOp.drawFromDeck] ∧
    GameEngine.EngineOp.shuffleDeck ∉
      (GameEngine.handle_empty_deck_scenario StandardRules
        ⟨⟨[]⟩, ⟨[some cardA, some cardB, some skipRedTop]⟩⟩).2.2 := by
  refine ⟨?_, ?_⟩ <;> decide

/-- C4 (amended): for every draw from an empty deck the recovery recycles
the board's non-top cards into the deck in board order and immediately
retries the draw; no shuffle is performed anywhere in the recovery flow
(the retried draw takes the last recycled element verbatim). -/
theorem C4_recovery_recycles_without_shuffle (rules : GameRules) (deck : Deck)
    (board : Board) (h : deck.card_deck = []) :
    GameEngine.handle_empty_deck_scenario rules ⟨deck, board⟩ =
      ((board.clear_all_except_last.1).getLast?.join,
       ⟨⟨(board.clear_all_except_last.1).dropLast⟩,
        ⟨[board.show_top_card_on_board]⟩⟩,
       [GameEngine.EngineOp.recycleFromBoard, GameEngine.EngineOp.drawFromDeck]) ∧
    GameEngine.EngineOp.shuffleDeck ∉
      (GameEngine.handle_empty_deck_scenario rules ⟨deck, board⟩).2.2 := by
  have hlen : deck.get_deck_length = 0 := by
    unfold Deck.get_deck_length
    rw [h]
    rfl
  have hrec : deck.attempt_recycle_deck board =
      (⟨board.clear_all_except_last.1⟩, ⟨[board.show_top_card_on_board]⟩) := by
    unfold Deck.attempt_recycle_deck Board.clear_all_except_last
    rw [h]
    rfl
  have hmain : GameEngine.handle_empty_deck_scenario rules ⟨deck, board⟩ =
      ((board.clear_all_except_last.1).getLast?.join,
       ⟨⟨(board.clear_all_except_last.1).dropLast⟩,
        ⟨[board.show_top_card_on_board]⟩⟩,
       [GameEngine.EngineOp.recycleFromBoard, GameEngine.EngineOp.drawFromDeck]) := by
    unfold GameEngine.handle_empty_deck_scenario
    simp only [hlen, if_pos, hrec]
    unfold Deck.draw_card
    cases hg : (board.clear_all_except_last.1).getLast? with
    | none =>
      have : board.clear_all_except_last.1 = [] := List.getLast?_eq_none_iff.mp hg
      simp [this]
    | some e => simp [hg]
  refine ⟨hmain, ?_⟩
  rw [hmain]
  show GameEngine.EngineOp.shuffleDeck ∉
    [GameEngine.EngineOp.recycleFromBoard, GameEngine.EngineOp.drawFromDeck]
  decide

/-- C4 witness: the amended recovery behavior evaluated on a concrete
empty deck and two-card board. -/
theorem C4_witness :
    GameEngine.handle_empty_deck_scenario StandardRules ⟨⟨[]⟩, ⟨[some cardA, some cardB]⟩⟩ =
      (((⟨[some cardA, some cardB]⟩ : Board).clear_all_except_last.1).getLast?.join,
       ⟨⟨((⟨[some cardA, some cardB]⟩ : Board).clear_all_except_last.1).dropLast⟩,
        ⟨[(⟨[some cardA, some cardB]⟩ : Board).show_top_card_on_board]⟩⟩,
       [GameEngine.EngineOp.recycleFromBoard, GameEngine.EngineOp.drawFromDeck]) ∧
    GameEngine.EngineOp.shuffleDeck ∉
      (GameEngine.handle_empty_deck_scenario StandardRules
        ⟨⟨[]⟩, ⟨[some cardA, some cardB]⟩⟩).2.2 :=
  C4_recovery_recycles_without_shuffle StandardRules ⟨[]⟩ ⟨[some cardA, some cardB]⟩ rfl

/-!  Claim C5. -/

/-- C5: with stacking disabled, a Draw-category card (DrawTwo or
WildDrawFour) is never a legal play onto a top card that itself carries the
DRAW effect category — whatever the colors and whatever the configured wild
kinds. -/
theorem C5_no_draw_stacking (g : Game) (card top : Card)
    (hkind : card.cls = CardClass.DrawTwoCard ∨ card.cls = CardClass.WildDrawFourCard)
    (hstack : g.rules.STACKABLE_DRAW_CARDS = false)
    (htop : g.board.show_top_card_on_board = some top)
    (hdraw : EffectCategory.DRAW ∈ top.effect_types) :
    GameEngine.validate_play g card = false := by
  have hred : card.can_execute_effect g =
      match Card.validate_last_card_allowed g with
      | Except.error e => Except.error e
      | Except.ok allowed =>
        if allowed = false then Except.ok false
        else if g.rules.STACKABLE_DRAW_CARDS = false ∧
                EffectCategory.DRAW ∈ top.effect_types then Except.ok false
        else Except.ok true := by
    rcases hkind with hk | hk <;> simp only [Card.can_execute_effect, hk, htop]
  have hcan : ∀ b : Bool, card.can_execute_effect g = Except.ok b → b = false := by
    intro b hb
    rw [hred] at hb
    cases hv : Card.validate_last_card_allowed g with
    | error e =>
      rw [hv] at hb
      have hb2 : (Except.error e : Except Unit Bool) = Except.ok b := hb
      exact absurd hb2 (by simp)
    | ok allowed =>
      rw [hv] at hb
      cases allowed with
      | false =>
        have hb2 : (Except.ok false : Except Unit Bool) = Except.ok b := hb
        exact (Except.ok.inj hb2).symm
      | true =>
        have hb2 : (if g.rules.STACKABLE_DRAW_CARDS = false ∧
            EffectCategory.DRAW ∈ top.effect_types then (Except.ok false : Except Unit Bool)
            else Except.ok true) = Except.ok b := hb
        rw [if_pos ⟨hstack, hdraw⟩] at hb2
        exact (Except.ok.inj hb2).symm
  have hnum : card.card_type ≠ CardType.NUMBER := by
    rcases hkind with hk | hk <;> rw [Card.card_type, hk] <;> decide
  have hnum2 : ¬ (card.card_type = CardType.NUMBER ∧
      card.card_value = top.card_value) := fun hcontra => hnum hcontra.1
  rw [validate_play_top g card top htop]
  split
  · rfl
  · rename_i heq
    by_cases hc : card.effective_color = top.effective_color
    · rw [if_pos hc] at heq
      exact absurd (hcan true heq) (by decide)
    · rw [if_neg hc] at heq
      exact absurd (Except.ok.inj heq) (by decide)
  · rw [if_neg hnum2]
    by_cases hmem : card.card_type ∈ g.deck_config.WILD_CARDS
    · rw [if_pos hmem]
      cases hce : card.can_execute_effect g with
      | error e => rfl
      | ok b =>
        have hb := hcan b hce
        subst hb
        rfl
    · rw [if_neg hmem]

/-- A blue DrawTwo card. -/
def drawTwoBlueTop : Card := ⟨CardClass.DrawTwoCard, Color.BLUE, none, 20, none⟩

/-- A second blue DrawTwo card (color-matching the top). -/
def drawTwoBlueHand : Card := ⟨CardClass.DrawTwoCard, Color.BLUE, none, 21, none⟩

/-- Rules with stacking disabled (base rules otherwise). -/
def rulesNoStack : GameRules := { StandardRules with STACKABLE_DRAW_CARDS := false }

/-- The C5 scenario: a blue DrawTwo on top, stacking disabled. -/
def gameC5 : Game :=
  { rules := rulesNoStack, deck_config := StandardDeck, deck := ⟨[]⟩,
    board := ⟨[some drawTwoBlueTop]⟩, tm := ⟨[playerC2], 0, true⟩,
    game_active := true }

/-- C5 witness: a color-matching DrawTwo onto a DrawTwo is rejected when
stacking is off. -/
theorem C5_witness : GameEngine.validate_play gameC5 drawTwoBlueHand = false :=
  C5_no_draw_stacking gameC5 drawTwoBlueHand drawTwoBlueTop (Or.inl rfl) rfl rfl
    (by decide)

/-!  Claim C1. -/

/-- The proposition that the Python call `card.can_execute_effect(game)`
evaluates, without raising, to True. -/
def canExec (g : Game) (c : Card) : Prop :=
  c.can_execute_effect g = Except.ok true

/-- C1: `validate_play` accepts a card exactly when one of the four rules
holds — the board is empty, or (2) effective colors match and the effect
check passes, or (3) the card is a Number card whose value equals the top
card's value, or (4) the card's type is a configured wild kind and the
effect check passes.  The rules are evaluated in source order with the
first `return True` winning; since every rule yields the same verdict the
function extensionally equals their disjunction.  The well-formedness
hypothesis says the board stores actual cards (no null entries), as the
data model guarantees. -/
theorem C1_validate_play_precedence (g : Game) (card : Card)
    (hwf : ∀ e ∈ g.board.cards_on_board, e.isSome = true) :
    GameEngine.validate_play g card = true ↔
      (g.board.cards_on_board = [] ∨
       ∃ top : Card, g.board.show_top_card_on_board = some top ∧
         ((card.effective_color = top.effective_color ∧ canExec g card) ∨
          (card.card_type = CardType.NUMBER ∧
           card.card_value = top.card_value) ∨
          (card.card_type ∈ g.deck_config.WILD_CARDS ∧ canExec g card))) := by
  cases htop : g.board.show_top_card_on_board with
  | none =>
    have hempty : g.board.cards_on_board = [] :=
      (getLast?_join_eq_none_iff _ hwf).mp htop
    constructor
    · intro _
      exact Or.inl hempty
    · intro _
      simp only [GameEngine.validate_play, htop]
  | some top =>
    have hne : ¬ (g.board.cards_on_board = []) := by
      intro hnil
      have hnone : g.board.show_top_card_on_board = none :=
        (getLast?_join_eq_none_iff _ hwf).mpr hnil
      rw [htop] at hnone
      exact Option.noConfusion hnone
    rw [validate_play_top g card top htop]
    cases hce : card.can_execute_effect g with
    | error e =>
      have hnotnum : card.card_type ≠ CardType.NUMBER := by
        intro h
        rw [canExec_of_number g card h] at hce
        exact Except.noConfusion hce
      by_cases hc : card.effective_color = top.effective_color <;>
        by_cases hm : card.card_type ∈ g.deck_config.WILD_CARDS <;>
        simp [hc, hm, hce, canExec, htop, hne, hnotnum]
    | ok b =>
      cases b <;>
        by_cases hc : card.effective_color = top.effective_color <;>
        by_cases hn : card.card_type = CardType.NUMBER ∧
          card.card_value = top.card_value <;>
        by_cases hm : card.card_type ∈ g.deck_config.WILD_CARDS <;>
        simp [hc, hn, hm, hce, canExec, htop, hne]

/-- A blue number-5 card (number-matching the red 5 on the board). -/
def cardC : Card := ⟨CardClass.NumberCard, Color.BLUE, some 5, 12, none⟩

/-- The C1 witness scenario: a red 5 on the board top. -/
def gameC1 : Game :=
  { rules := StandardRules, deck_config := StandardDeck, deck := ⟨[]⟩,
    board := ⟨[some cardA]⟩, tm := ⟨[playerC2], 0, true⟩, game_active := true }

/-- C1 witness: the full precedence equivalence evaluated on a concrete
board with a red 5 on top and a blue 5 candidate. -/
theorem C1_witness :
    GameEngine.validate_play gameC1 cardC = true ↔
      (gameC1.board.cards_on_board = [] ∨
       ∃ top : Card, gameC1.board.show_top_card_on_board = some top ∧
         ((cardC.effective_color = top.effective_color ∧ canExec gameC1 cardC) ∨
          (cardC.card_type = CardType.NUMBER ∧
           cardC.card_value = top.card_value) ∨
          (cardC.card_type ∈ gameC1.deck_config.WILD_CARDS ∧
           canExec gameC1 cardC))) :=
  C1_validate_play_precedence gameC1 cardC (by decide)

/-!  Claim C10. -/

/-- Drawing `k` cards from a deck of honest cards (no null entries) of
length at least `k` succeeds completely: the hand grows by exactly `k`,
the deck shrinks by exactly `k`, the board is untouched and the deck stays
free of null entries. -/
theorem player_draw_card_spec (rules : GameRules) :
    ∀ (k : Nat) (st : GameEngine.DrawState) (hand : Hand),
      (∀ e ∈ st.deck.card_deck, e.isSome = true) →
      k ≤ st.deck.card_deck.length →
      ((GameEngine.player_draw_card rules st hand k).2.cards.length
          = hand.cards.length + k ∧
       (GameEngine.player_draw_card rules st hand k).1.deck.card_deck.length
          = st.deck.card_deck.length - k ∧
       (GameEngine.player_draw_card rules st hand k).1.board = st.board ∧
       (∀ e ∈ (GameEngine.player_draw_card rules st hand k).1.deck.card_deck,
          e.isSome = true)) := by
  intro k
  induction k with
  | zero =>
    intro st hand hsome _hlen
    exact ⟨by simp [GameEngine.player_draw_card],
      by simp [GameEngine.player_draw_card], rfl, hsome⟩
  | succ n ih =>
    intro st hand hsome hlen
    have hne : st.deck.card_deck ≠ [] := by
      intro h
      rw [h] at hlen
      simp at hlen
    obtain ⟨e, he⟩ : ∃ e, st.deck.card_deck.getLast? = some e := by
      cases hg : st.deck.card_deck.getLast? with
      | none => exact absurd (List.getLast?_eq_none_iff.mp hg) hne
      | some e => exact ⟨e, rfl⟩
    have hemem : e ∈ st.deck.card_deck := by
      obtain ⟨ys, hys⟩ := List.getLast?_eq_some_iff.mp he
      rw [hys]
      exact List.mem_append_right _ (List.mem_singleton_self e)
    obtain ⟨c, hc⟩ := Option.isSome_iff_exists.mp (hsome e hemem)
    have hstep : GameEngine.player_draw_card rules st hand (n + 1)
        = GameEngine.player_draw_card rules ⟨⟨st.deck.card_deck.dropLast⟩, st.board⟩
            ⟨hand.cards ++ [c]⟩ n := by
      simp only [GameEngine.player_draw_card, Deck.draw_card, he, hc]
    have hs₂ : ∀ e₂ ∈ st.deck.card_deck.dropLast, e₂.isSome = true := fun e₂ he₂ =>
      hsome e₂ ((List.dropLast_sublist st.deck.card_deck).subset he₂)
    have hlen₂ : n ≤ st.deck.card_deck.dropLast.length := by
      rw [List.length_dropLast]
      omega
    obtain ⟨ih1, ih2, ih3, ih4⟩ :=
      ih ⟨⟨st.deck.card_deck.dropLast⟩, st.board⟩ ⟨hand.cards ++ [c]⟩ hs₂ hlen₂
    refine ⟨?_, ?_, ?_, ?_⟩
    · rw [hstep, ih1]
      simp only [List.length_append, List.length_singleton]
      omega
    · rw [hstep, ih2, List.length_dropLast]
      omega
    · rw [hstep]
      exact ih3
    · rw [hstep]
      exact ih4

/-- Dealing `n` cards to each player in list order, with enough honest
cards in the deck, grows every hand by exactly `n`. -/
theorem deal_loop_spec (rules : GameRules) (n : Nat) :
    ∀ (players : List Player) (st : GameEngine.DrawState),
      (∀ e ∈ st.deck.card_deck, e.isSome = true) →
      n * players.length ≤ st.deck.card_deck.length →
      (GameEngine.deal_loop rules n st players).2.map (fun p => p.hand.cards.length)
        = players.map (fun p => p.hand.cards.length + n) := by
  intro players
  induction players with
  | nil =>
    intro st _hsome _hlen
    rfl
  | cons p rest ih =>
    intro st hsome hlen
    have hmul : n * (rest.length + 1) = n * rest.length + n := Nat.mul_succ n rest.length
    have hlen1 : n * rest.length + n ≤ st.deck.card_deck.length := by
      rw [← hmul]
      simpa using hlen
    have hn_le : n ≤ st.deck.card_deck.length :=
      le_trans (Nat.le_add_left n _) hlen1
    obtain ⟨hhand, hdeck, _hboard, hsome₂⟩ :=
      player_draw_card_spec rules n st p.hand hsome hn_le
    have hlen₂ : n * rest.length ≤
        (GameEngine.player_draw_card rules st p.hand n).1.deck.card_deck.length := by
      rw [hdeck]
      exact Nat.le_sub_of_add_le hlen1
    have hrest := ih (GameEngine.player_draw_card rules st p.hand n).1 hsome₂ hlen₂
    simp only [GameEngine.deal_loop, List.map_cons]
    rw [hrest, hhand]

/-- C10: `deal_cards` with a non-int or non-positive `cards_per_player`
does not fail and does not deal that value — it falls back to 7 and (deck
permitting) deals exactly 7 cards to each player in list order; with a
positive integer n it deals exactly n cards to each player.  `none` stands
for a Python argument that is not an int (the isinstance check fails). -/
theorem C10_deal_cards_fallback (rules : GameRules) (st : GameEngine.DrawState)
    (players : List Player) (v : Option Int)
    (hsome : ∀ e ∈ st.deck.card_deck, e.isSome = true) :
    ((v = none ∨ ∃ m : Int, v = some m ∧ m ≤ 0) →
      7 * players.length ≤ st.deck.card_deck.length →
      (GameEngine.deal_cards rules st players v).2.map (fun p => p.hand.cards.length)
        = players.map (fun p => p.hand.cards.length + 7)) ∧
    (∀ m : Int, v = some m → 0 < m →
      m.toNat * players.length ≤ st.deck.card_deck.length →
      (GameEngine.deal_cards rules st players v).2.map (fun p => p.hand.cards.length)
        = players.map (fun p => p.hand.cards.length + m.toNat)) := by
  constructor
  · intro hinvalid hlen
    have hcpp : GameEngine.deal_cards rules st players v
        = GameEngine.deal_loop rules 7 st players := by
      rcases hinvalid with h | ⟨m, hm, hm0⟩
      · subst h
        rfl
      · subst hm
        simp only [GameEngine.deal_cards]
        rw [if_pos hm0]
        rfl
    rw [hcpp]
    exact deal_loop_spec rules 7 players st hsome hlen
  · intro m hm hpos hlen
    subst hm
    have hcpp : GameEngine.deal_cards rules st players (some m)
        = GameEngine.deal_loop rules m.toNat st players := by
      simp only [GameEngine.deal_cards]
      rw [if_neg (by omega)]
    rw [hcpp]
    exact deal_loop_spec rules m.toNat players st hsome hlen

/-- A 14-card deck of honest cards. -/
def deckC10 : Deck := ⟨List.replicate 14 (some cardA)⟩

/-- First player dealt to in the C10 witness. -/
def playerD1 : Player := ⟨"D1", ⟨[]⟩, 6, some true⟩

/-- Second player dealt to in the C10 witness. -/
def playerD2 : Player := ⟨"D2", ⟨[]⟩, 7, some false⟩

/-- C10 witness: dealing with the invalid value 0 gives both players 7
cards; dealing with 3 gives both players 3 cards. -/
theorem C10_witness :
    (GameEngine.deal_cards StandardRules ⟨deckC10, ⟨[]⟩⟩ [playerD1, playerD2]
        (some 0)).2.map (fun p => p.hand.cards.length) = [7, 7] ∧
    (GameEngine.deal_cards StandardRules ⟨deckC10, ⟨[]⟩⟩ [playerD1, playerD2]
        (some 3)).2.map (fun p => p.hand.cards.length) = [3, 3] := by
  constructor
  · have h := (C10_deal_cards_fallback StandardRules ⟨deckC10, ⟨[]⟩⟩
      [playerD1, playerD2] (some 0) (by decide)).1
      (Or.inr ⟨0, rfl, by decide⟩) (by decide)
    rw [h]
    rfl
  · have h := (C10_deal_cards_fallback StandardRules ⟨deckC10, ⟨[]⟩⟩
      [playerD1, playerD2] (some 3) (by decide)).2 3 rfl (by decide) (by decide)
    rw [h]
    rfl

end UNO
